import Mathlib

/-!
Verification development for the JiraFlow pipeline.

Shallow embedding of the two algorithmic cores of the repository:

* the Silver-layer Quality Gate (`split_quality_checks` in
  `src/silver/silver_pipeline.py`), and
* the Gold-layer SLA engine (`calculate_business_hours`,
  `get_expected_sla_hours`, `get_sla_status` in `src/sla/sla_calculation.py`
  and `filter_resolved` / `calculate_sla_metrics` / `run_gold` in
  `src/gold/gold_pipeline.py`).

Modelling conventions:

* A dataframe is a `List IssueRecord` in input order; nullable columns are
  `Option` fields (`pd.NA` / `NaT` is `none`).
* Timestamps are UTC seconds since an epoch whose day 0 is a Thursday
  (as for the Unix epoch), so the weekday of day index `d` is `(d + 3) % 7`
  with Monday = 0, matching Python `datetime.weekday()`.
* Holiday sets are lists of day indices; Python's `in` is list membership.
* Fractional hours are exact rationals; `round(x, 2)` is modelled as
  rounding `100 * x` to the nearest integer on exact rationals.
* File I/O, Parquet round-trips, profiling, and the network holiday fetch
  are plumbing outside the embedded core; the holiday set is a parameter.
-/

/-- One normalized issue row as produced by the Silver `clean_data` step:
nullable `issue_id` and categorical columns, nullable UTC timestamps. -/
structure IssueRecord where
  issue_id : Option String
  issue_type : Option String
  status : Option String
  priority : Option String
  assignee_name : Option String
  created_at : Option Nat
  resolved_at : Option Nat
  deriving DecidableEq, Repr

/-- The `reject_reason` value `split_quality_checks` computes for one row.

Embeds the mask chain of `silver_pipeline.py` lines 117-126:
`missing_issue_id = df["issue_id"].isna()`,
`missing_created_at = df["created_at"].isna()`,
`duplicate_issue_id = df["issue_id"].duplicated(keep="first")` (true when an
earlier row has an equal `issue_id`; pandas treats two `NA` ids as equal
here), then a `pd.NA` series masked successively with `missing_issue_id`,
then `missing_created_at`, then `duplicate_issue_id` — each `mask`
overwrites the rows where its condition holds, so a later mask wins.
`seen` is the list of `issue_id`s of the rows strictly earlier in input
order. -/
def rowReason (seen : List (Option String)) (r : IssueRecord) : Option String :=
  let s1 : Option String := if r.issue_id = none then some "missing_issue_id" else none
  let s2 : Option String := if r.created_at = none then some "missing_created_at" else s1
  if r.issue_id ∈ seen then some "duplicate_issue_id" else s2

/-- Row-by-row accumulation of `split_quality_checks`: rows with a `none`
reason go to the valid partition, rows with a reason are paired with it in
the rejects partition; every row's `issue_id` (valid or not) enters `seen`,
exactly as `duplicated(keep="first")` scans the whole column. -/
def splitGo (seen : List (Option String)) :
    List IssueRecord → List IssueRecord × List (IssueRecord × String)
  | [] => ([], [])
  | r :: rest =>
    let res := splitGo (r.issue_id :: seen) rest
    match rowReason seen r with
    | none => (r :: res.1, res.2)
    | some s => (res.1, (r, s) :: res.2)

/-- `split_quality_checks` (`silver_pipeline.py` lines 112-132): split rows
into valid and rejected sets, the rejected rows carrying their
`reject_reason`. -/
def split_quality_checks (df : List IssueRecord) :
    List IssueRecord × List (IssueRecord × String) :=
  splitGo [] df

/-- Reference reason assignment written directly as a first-match-wins
cascade in the precedence order `duplicate_issue_id`, then
`missing_created_at`, then `missing_issue_id`.  Used to state what
precedence `split_quality_checks` actually implements. -/
def gateReasonSpec (seen : List (Option String)) (r : IssueRecord) : Option String :=
  if r.issue_id ∈ seen then some "duplicate_issue_id"
  else if r.created_at = none then some "missing_created_at"
  else if r.issue_id = none then some "missing_issue_id"
  else none

/-- The gate of `splitGo` re-expressed with `gateReasonSpec`. -/
def gateSpecGo (seen : List (Option String)) :
    List IssueRecord → List IssueRecord × List (IssueRecord × String)
  | [] => ([], [])
  | r :: rest =>
    let res := gateSpecGo (r.issue_id :: seen) rest
    match gateReasonSpec seen r with
    | none => (r :: res.1, res.2)
    | some s => (res.1, (r, s) :: res.2)

/-- The Quality Gate with the explicit first-match-wins precedence
`duplicate_issue_id` > `missing_created_at` > `missing_issue_id`. -/
def gateSpec (df : List IssueRecord) :
    List IssueRecord × List (IssueRecord × String) :=
  gateSpecGo [] df

/-- Calendar-day index of a timestamp: `dt.date()` as days since the epoch. -/
def dateOf (t : Nat) : Nat := t / 86400

/-- `datetime.weekday()` of a day index (Monday = 0); epoch day 0 is a
Thursday, hence the offset 3. -/
def weekday (d : Nat) : Nat := (d + 3) % 7

/-- Python `round(x, 2)` on exact rationals: round `100 * x` to the nearest
integer and divide back. -/
def round2 (q : ℚ) : ℚ := (round (q * 100) : ℤ) / 100

/-- The contribution of calendar day `d` inside the day-walking loop of
`calculate_business_hours` (`sla_calculation.py` lines 32-43).  On a
weekday that is not a holiday, the walk pointer `current` equals the start
instant on the start's own day and that day's midnight `d * 86400`
afterwards, i.e. `max startT (d * 86400)` for every day the loop visits;
`interval_start = max(current, day_start)`, `interval_end = min(end_dt,
day_end)`, and the interval counts only when non-empty, in hours
(`total_seconds() / 3600`). -/
def dayHours (startT endT : Nat) (holidays : List Nat) (bStart bEnd : Nat)
    (d : Nat) : ℚ :=
  if weekday d < 5 ∧ d ∉ holidays then
    let intervalStart := max (max startT (d * 86400)) (d * 86400 + bStart)
    let intervalEnd := min endT (d * 86400 + bEnd)
    if intervalStart < intervalEnd then ((intervalEnd - intervalStart : ℕ) : ℚ) / 3600
    else 0
  else 0

/-- `calculate_business_hours` (`sla_calculation.py` lines 9-45): `0.0` when
`end_dt <= start_dt`; otherwise the while loop walks the calendar days from
`start_dt.date()` to `end_dt.date()` inclusive, accumulating each business
day's window intersection, and the total is rounded to two decimals.
`bStart`/`bEnd` are the business window bounds as seconds after midnight
(defaults in the source: `time(0, 0)` = 0 and `time(23, 59, 59)` = 86399). -/
def calculate_business_hours (startT endT : Nat) (holidays : List Nat)
    (bStart bEnd : Nat) : ℚ :=
  if endT ≤ startT then 0
  else round2 (∑ k ∈ Finset.range (dateOf endT + 1 - dateOf startT),
    dayHours startT endT holidays bStart bEnd (dateOf startT + k))

/-- `get_expected_sla_hours` (`sla_calculation.py` lines 48-57): fixed
priority table with default 72 via `mapping.get(priority, 72)`; a missing
(`NA`) priority also falls through to the default. -/
def get_expected_sla_hours (priority : Option String) : Nat :=
  if priority = some "High" then 24
  else if priority = some "Medium" then 72
  else if priority = some "Low" then 120
  else 72

/-- `get_sla_status` (`sla_calculation.py` lines 60-62):
`"met" if actual_hours <= expected_hours else "violated"`. -/
def get_sla_status (actual_hours : ℚ) (expected_hours : Nat) : String :=
  if actual_hours ≤ (expected_hours : ℚ) then "met" else "violated"

/-- The `resolution_time_business_hours` value computed per row in
`calculate_sla_metrics` (`gold_pipeline.py` lines 63-68), with the default
business window `time(0, 0)`–`time(23, 59, 59)`.  When `created_at` or
`resolved_at` is missing (`NaT`), every comparison against it is false, so
the `end_dt <= start_dt` guard falls through and the day loop's condition
`current.date() <= end_dt.date()` is false at once: the function returns
`round(0.0, 2) = 0.0`. -/
def resolution_time_business_hours (created resolved : Option Nat)
    (holidays : List Nat) : ℚ :=
  match created, resolved with
  | some s, some e => calculate_business_hours s e holidays 0 86399
  | _, _ => 0

/-- One SLA-enriched Gold row: the Silver columns plus the three derived
fields of `calculate_sla_metrics`. -/
structure GoldRecord where
  base : IssueRecord
  resolution_time_business_hours : ℚ
  expected_sla_hours : Nat
  sla_status : String
  deriving DecidableEq, Repr

/-- The per-row body of `calculate_sla_metrics` (`gold_pipeline.py`
lines 62-75): business-hours resolution time, expected SLA hours from the
priority, and the met/violated verdict. -/
def sla_metrics_row (holidays : List Nat) (r : IssueRecord) : GoldRecord :=
  let hours := resolution_time_business_hours r.created_at r.resolved_at holidays
  let expected := get_expected_sla_hours r.priority
  { base := r
    resolution_time_business_hours := hours
    expected_sla_hours := expected
    sla_status := get_sla_status hours expected }

/-- `calculate_sla_metrics` (`gold_pipeline.py` lines 46-77) over a list of
rows; the holiday set, fetched once per run from the Calendar Provider, is
a read-only parameter. -/
def calculate_sla_metrics (df : List IssueRecord) (holidays : List Nat) :
    List GoldRecord :=
  df.map (sla_metrics_row holidays)

/-- `filter_resolved` (`gold_pipeline.py` lines 33-35):
`df[df["status"].isin(["Done", "Resolved"])]`; a missing status is not in
the set. -/
def filter_resolved (df : List IssueRecord) : List IssueRecord :=
  df.filter (fun r => r.status == some "Done" || r.status == some "Resolved")

/-- The in-memory core of `run_gold` (`gold_pipeline.py` lines 232-244):
read Silver rows, keep Done/Resolved, enrich with SLA metrics.  Disk I/O,
the holiday fetch (the holiday set is a parameter) and
`select_gold_columns` (which only drops the `assignee_id`/`assignee_email`
columns) are plumbing outside the embedded core. -/
def run_gold (df : List IssueRecord) (holidays : List Nat) : List GoldRecord :=
  calculate_sla_metrics (filter_resolved df) holidays

/-- Record with every column missing; concrete rows below override fields. -/
def blankRecord : IssueRecord :=
  { issue_id := none, issue_type := none, status := none, priority := none
    assignee_name := none, created_at := none, resolved_at := none }

/-- First occurrence of id "A", well-formed. -/
def rowA1 : IssueRecord := { blankRecord with issue_id := some "A", created_at := some 0 }

/-- Second occurrence of id "A", with `created_at` missing. -/
def rowA2 : IssueRecord := { blankRecord with issue_id := some "A" }

/-- A row with `issue_id` missing but `created_at` present. -/
def rowNoId1 : IssueRecord := { blankRecord with created_at := some 0 }

/-- A second row with `issue_id` missing (pandas `duplicated` counts it as a
duplicate of the first `NA` id). -/
def rowNoId2 : IssueRecord := { blankRecord with created_at := some 5 }

/-- A Done-status row without a resolution timestamp. -/
def doneRow : IssueRecord :=
  { blankRecord with issue_id := some "B", status := some "Done", created_at := some 0 }

/- ### Lemmas about the Quality Gate -/

lemma rowReason_eq_gateReasonSpec (seen : List (Option String)) (r : IssueRecord) :
    rowReason seen r = gateReasonSpec seen r := by
  unfold rowReason gateReasonSpec
  by_cases hdup : r.issue_id ∈ seen <;>
    by_cases hmc : r.created_at = none <;>
      by_cases hmi : r.issue_id = none <;>
        simp [hdup, hmc, hmi]

lemma rowReason_eq_none_iff (seen : List (Option String)) (r : IssueRecord) :
    rowReason seen r = none ↔
      r.issue_id ≠ none ∧ r.created_at ≠ none ∧ r.issue_id ∉ seen := by
  rw [rowReason_eq_gateReasonSpec]
  unfold gateReasonSpec
  split_ifs with h1 h2 h3 <;> simp_all

lemma splitGo_cons_valid (seen : List (Option String)) (r : IssueRecord)
    (rest : List IssueRecord) (h : rowReason seen r = none) :
    splitGo seen (r :: rest) =
      (r :: (splitGo (r.issue_id :: seen) rest).1,
        (splitGo (r.issue_id :: seen) rest).2) := by
  simp [splitGo, h]

lemma splitGo_cons_reject (seen : List (Option String)) (r : IssueRecord)
    (rest : List IssueRecord) (s : String) (h : rowReason seen r = some s) :
    splitGo seen (r :: rest) =
      ((splitGo (r.issue_id :: seen) rest).1,
        (r, s) :: (splitGo (r.issue_id :: seen) rest).2) := by
  simp [splitGo, h]

lemma splitGo_length_perm (df : List IssueRecord) : ∀ seen : List (Option String),
    (splitGo seen df).1.length + (splitGo seen df).2.length = df.length ∧
    ((splitGo seen df).1 ++ (splitGo seen df).2.map Prod.fst).Perm df := by
  induction df with
  | nil => intro seen; simp [splitGo]
  | cons r rest ih =>
    intro seen
    obtain ⟨hlen, hperm⟩ := ih (r.issue_id :: seen)
    cases h : rowReason seen r with
    | none =>
      rw [splitGo_cons_valid seen r rest h]
      constructor
      · simp only [List.length_cons]
        omega
      · simpa using hperm.cons r
    | some s =>
      rw [splitGo_cons_reject seen r rest s h]
      constructor
      · simp only [List.length_cons]
        omega
      · simp only [List.map_cons, List.cons_append]
        exact List.perm_middle.trans (hperm.cons r)

lemma splitGo_valid_inv (df : List IssueRecord) : ∀ seen : List (Option String),
    (∀ r ∈ (splitGo seen df).1,
      r.issue_id ≠ none ∧ r.created_at ≠ none ∧ r.issue_id ∉ seen ∧
      df.find? (fun x => x.issue_id == r.issue_id) = some r) ∧
    ((splitGo seen df).1.map (fun r => r.issue_id)).Nodup := by
  induction df with
  | nil => intro seen; simp [splitGo]
  | cons r rest ih =>
    intro seen
    obtain ⟨hmem, hnodup⟩ := ih (r.issue_id :: seen)
    cases h : rowReason seen r with
    | none =>
      obtain ⟨hid, hca, hseen⟩ := (rowReason_eq_none_iff seen r).mp h
      rw [splitGo_cons_valid seen r rest h]
      constructor
      · intro x hx
        rcases List.mem_cons.mp hx with hx | hx
        · subst hx
          exact ⟨hid, hca, hseen, by rw [List.find?_cons_of_pos _ (by simp)]⟩
        · obtain ⟨hid', hca', hseen', hfind'⟩ := hmem x hx
          have hne : x.issue_id ≠ r.issue_id := fun hc => hseen' (hc ▸ List.mem_cons_self _ _)
          refine ⟨hid', hca', fun hc => hseen' (List.mem_cons_of_mem _ hc), ?_⟩
          rw [List.find?_cons_of_neg _ (by simpa using fun hc => hne hc.symm)]
          exact hfind'
      · simp only [List.map_cons, List.nodup_cons]
        refine ⟨fun hc => ?_, hnodup⟩
        obtain ⟨x, hx, hxid⟩ := List.mem_map.mp hc
        exact (hmem x hx).2.2.1 (hxid ▸ List.mem_cons_self _ _)
    | some s =>
      rw [splitGo_cons_reject seen r rest s h]
      refine ⟨fun x hx => ?_, hnodup⟩
      obtain ⟨hid', hca', hseen', hfind'⟩ := hmem x hx
      have hne : x.issue_id ≠ r.issue_id := fun hc => hseen' (hc ▸ List.mem_cons_self _ _)
      refine ⟨hid', hca', fun hc => hseen' (List.mem_cons_of_mem _ hc), ?_⟩
      rw [List.find?_cons_of_neg _ (by simpa using fun hc => hne hc.symm)]
      exact hfind'

lemma splitGo_all_valid (df : List IssueRecord) : ∀ seen : List (Option String),
    (∀ r ∈ df, r.issue_id ≠ none ∧ r.created_at ≠ none) →
    (df.map (fun r => r.issue_id)).Nodup →
    (∀ r ∈ df, r.issue_id ∉ seen) →
    splitGo seen df = (df, []) := by
  induction df with
  | nil => intro seen _ _ _; simp [splitGo]
  | cons r rest ih =>
    intro seen hok hnodup hseen
    simp only [List.map_cons, List.nodup_cons] at hnodup
    have h : rowReason seen r = none :=
      (rowReason_eq_none_iff seen r).mpr
        ⟨(hok r (List.mem_cons_self _ _)).1, (hok r (List.mem_cons_self _ _)).2,
          hseen r (List.mem_cons_self _ _)⟩
    have hseen' : ∀ x ∈ rest, x.issue_id ∉ r.issue_id :: seen := by
      intro x hx hc
      rcases List.mem_cons.mp hc with hc | hc
      · exact hnodup.1 (hc ▸ List.mem_map.mpr ⟨x, hx, rfl⟩)
      · exact hseen x (List.mem_cons_of_mem _ hx) hc
    rw [splitGo_cons_valid seen r rest h,
      ih (r.issue_id :: seen) (fun x hx => hok x (List.mem_cons_of_mem _ hx)) hnodup.2 hseen']

lemma splitGo_eq_gateSpecGo (df : List IssueRecord) : ∀ seen : List (Option String),
    splitGo seen df = gateSpecGo seen df := by
  induction df with
  | nil => intro seen; rfl
  | cons r rest ih =>
    intro seen
    simp only [splitGo, gateSpecGo, rowReason_eq_gateReasonSpec, ih (r.issue_id :: seen)]

/- ### Claim theorems: Quality Gate -/

/-- Claim C1, counterexample to the stated precedence.  In
`split_quality_checks` the later masks overwrite the earlier ones, so a
second occurrence of id "A" whose `created_at` is missing is stamped
`duplicate_issue_id`, not `missing_created_at`; and a second row with a
missing `issue_id` (a duplicate of the first `NA` id) is stamped
`duplicate_issue_id`, not `missing_issue_id`. -/
theorem quality_gate_precedence_counterexample :
    (split_quality_checks [rowA1, rowA2]).2 = [(rowA2, "duplicate_issue_id")] ∧
    (split_quality_checks [rowNoId1, rowNoId2]).2 =
      [(rowNoId1, "missing_issue_id"), (rowNoId2, "duplicate_issue_id")] ∧
    "duplicate_issue_id" ≠ "missing_created_at" ∧
    "duplicate_issue_id" ≠ "missing_issue_id" := by
  refine ⟨by decide, by decide, by decide, by decide⟩

/-- Claim C1 (amended): the Quality Gate stamps each rejected row with
exactly one `reject_reason`, chosen by first-match-wins precedence in the
fixed order `duplicate_issue_id`, then `missing_created_at`, then
`missing_issue_id` — the reverse of the spec's order, because each
successive `mask` call overwrites the previously assigned reasons.
`split_quality_checks` coincides with `gateSpec`, the gate written directly
as that first-match-wins cascade. -/
theorem quality_gate_precedence (df : List IssueRecord) :
    split_quality_checks df = gateSpec df :=
  splitGo_eq_gateSpecGo df []

/-- Claim C2: the two output partitions of the Quality Gate are a complete
partition of the input: `|valid| + |rejected| = |input|` and, ignoring the
added `reject_reason` component, the union of the two partitions is a
permutation of the input rows — no row is dropped or duplicated. -/
theorem quality_gate_partition (df : List IssueRecord) :
    (split_quality_checks df).1.length + (split_quality_checks df).2.length
        = df.length ∧
    ((split_quality_checks df).1 ++
        (split_quality_checks df).2.map Prod.fst).Perm df :=
  splitGo_length_perm df []

/-- Claim C3: the Quality Gate is idempotent on its valid output — running
`split_quality_checks` on the valid partition of its own output rejects
nothing (and returns the valid partition unchanged). -/
theorem quality_gate_idempotent (df : List IssueRecord) :
    split_quality_checks (split_quality_checks df).1
      = ((split_quality_checks df).1, []) := by
  obtain ⟨hmem, hnodup⟩ := splitGo_valid_inv df []
  exact splitGo_all_valid (split_quality_checks df).1 []
    (fun r hr => ⟨(hmem r hr).1, (hmem r hr).2.1⟩) hnodup (fun r _ => List.not_mem_nil _)

/-- Claim C10: every row of the valid partition has a non-null `issue_id`
and a non-null `created_at`, the `issue_id`s of the valid rows are pairwise
distinct, and each valid row is the first row of the input carrying its
`issue_id` (first occurrence in input order). -/
theorem valid_partition_well_formed (df : List IssueRecord) :
    (∀ r ∈ (split_quality_checks df).1,
      r.issue_id ≠ none ∧ r.created_at ≠ none ∧
      df.find? (fun x => x.issue_id == r.issue_id) = some r) ∧
    ((split_quality_checks df).1.map (fun r => r.issue_id)).Nodup := by
  obtain ⟨hmem, hnodup⟩ := splitGo_valid_inv df []
  exact ⟨fun r hr => ⟨(hmem r hr).1, (hmem r hr).2.1, (hmem r hr).2.2.2⟩, hnodup⟩

/-- Witness for C10 at a concrete input: `rowA1` is in the valid partition
of `[rowA1, rowA2]`, has non-null key columns, and is the first occurrence
of its id. -/
theorem valid_partition_well_formed_witness :
    rowA1.issue_id ≠ none ∧ rowA1.created_at ≠ none ∧
    [rowA1, rowA2].find? (fun x => x.issue_id == rowA1.issue_id) = some rowA1 :=
  (valid_partition_well_formed [rowA1, rowA2]).1 rowA1 (by decide)

/- ### Lemmas about the Business-Hours Calculator -/

lemma dayHours_nonneg (s e : Nat) (hol : List Nat) (bs be d : Nat) :
    0 ≤ dayHours s e hol bs be d := by
  simp only [dayHours]
  split_ifs <;> positivity

lemma dayHours_mono_end (s : Nat) (hol : List Nat) (bs be d : Nat)
    (e1 e2 : Nat) (h : e1 ≤ e2) :
    dayHours s e1 hol bs be d ≤ dayHours s e2 hol bs be d := by
  simp only [dayHours]
  split_ifs with hbd h1 h2 h2
  · have hsub : min e1 (d * 86400 + be) - max (max s (d * 86400)) (d * 86400 + bs)
        ≤ min e2 (d * 86400 + be) - max (max s (d * 86400)) (d * 86400 + bs) := by
      omega
    exact (div_le_div_iff_of_pos_right (by norm_num)).mpr (by exact_mod_cast hsub)
  · omega
  · positivity
  · exact le_refl 0
  · exact le_refl 0

lemma round2_mono (a b : ℚ) (h : a ≤ b) : round2 a ≤ round2 b := by
  unfold round2
  have hr : round (a * 100) ≤ round (b * 100) := by
    rw [round_eq, round_eq]
    exact Int.floor_le_floor (by linarith)
  have : ((round (a * 100) : ℤ) : ℚ) ≤ ((round (b * 100) : ℤ) : ℚ) := by
    exact_mod_cast hr
  linarith

lemma round2_nonneg (a : ℚ) (h : 0 ≤ a) : 0 ≤ round2 a := by
  have h0 : round2 0 = 0 := by simp [round2]
  have := round2_mono 0 a h
  linarith

/- ### Claim theorems: Business-Hours Calculator -/

/-- Claim C4: for a fixed start instant, holiday set and business window,
`calculate_business_hours` is monotonically non-decreasing in the end
instant. -/
theorem business_hours_mono_in_end (s : Nat) (hol : List Nat) (bs be : Nat)
    (e1 e2 : Nat) (h : e1 ≤ e2) :
    calculate_business_hours s e1 hol bs be
      ≤ calculate_business_hours s e2 hol bs be := by
  unfold calculate_business_hours
  split_ifs with h1 h2 h2
  · exact le_refl 0
  · exact round2_nonneg _ (Finset.sum_nonneg fun k _ => dayHours_nonneg _ _ _ _ _ _)
  · omega
  · refine round2_mono _ _ ?_
    calc (∑ k ∈ Finset.range (dateOf e1 + 1 - dateOf s),
            dayHours s e1 hol bs be (dateOf s + k))
        ≤ ∑ k ∈ Finset.range (dateOf e1 + 1 - dateOf s),
            dayHours s e2 hol bs be (dateOf s + k) :=
          Finset.sum_le_sum fun k _ => dayHours_mono_end s hol bs be _ e1 e2 h
      _ ≤ ∑ k ∈ Finset.range (dateOf e2 + 1 - dateOf s),
            dayHours s e2 hol bs be (dateOf s + k) :=
          Finset.sum_le_sum_of_subset_of_nonneg
            (Finset.range_subset.mpr (by unfold dateOf; omega))
            (fun k _ _ => dayHours_nonneg _ _ _ _ _ _)

/-- Witness for C4 at concrete inputs. -/
theorem business_hours_mono_in_end_witness :
    calculate_business_hours 0 3600 [] 0 86399
      ≤ calculate_business_hours 0 7200 [] 0 86399 :=
  business_hours_mono_in_end 0 [] 0 86399 3600 7200 (by decide)

lemma dayHours_eval_on (s e : Nat) (hol : List Nat) (bs be d : Nat)
    (hwd : weekday d < 5) (hhol : d ∉ hol) :
    dayHours s e hol bs be d =
      if max (max s (d * 86400)) (d * 86400 + bs) < min e (d * 86400 + be)
      then ((min e (d * 86400 + be)
          - max (max s (d * 86400)) (d * 86400 + bs) : ℕ) : ℚ) / 3600
      else 0 := by
  simp [dayHours, hwd, hhol]

lemma dayHours_eval_off (s e : Nat) (hol : List Nat) (bs be d : Nat)
    (hwd : ¬ weekday d < 5) :
    dayHours s e hol bs be d = 0 := by
  simp [dayHours, hwd]

/-- Claim C5: with business window 09:00-17:00 (seconds 32400-61200) and no
holidays, the business hours from any Friday 16:00 (day index `7 * w + 1`,
since epoch day 0 is a Thursday; 16:00 is second 57600) to the following
Monday 10:00 (day index `7 * w + 4`, second 36000) are exactly 2: one hour
Friday 16:00-17:00 plus one hour Monday 09:00-10:00, the weekend
contributing nothing. -/
theorem friday_to_monday_two_hours (w : Nat) :
    calculate_business_hours ((7 * w + 1) * 86400 + 57600)
      ((7 * w + 4) * 86400 + 36000) [] 32400 61200 = 2 := by
  have hlt : ¬ ((7 * w + 4) * 86400 + 36000 ≤ (7 * w + 1) * 86400 + 57600) := by
    omega
  have hd1 : dateOf ((7 * w + 1) * 86400 + 57600) = 7 * w + 1 := by
    unfold dateOf; omega
  have hd2 : dateOf ((7 * w + 4) * 86400 + 36000) = 7 * w + 4 := by
    unfold dateOf; omega
  unfold calculate_business_hours
  rw [if_neg hlt, hd1, hd2]
  have hn : 7 * w + 4 + 1 - (7 * w + 1) = 4 := by omega
  rw [hn]
  simp only [Finset.sum_range_succ, Finset.sum_range_one]
  have e0 : dayHours ((7 * w + 1) * 86400 + 57600) ((7 * w + 4) * 86400 + 36000)
      [] 32400 61200 (7 * w + 1 + 0) = 1 := by
    rw [dayHours_eval_on _ _ _ _ _ _ (by unfold weekday; omega) (List.not_mem_nil _),
      if_pos (by omega)]
    have hsub : min ((7 * w + 4) * 86400 + 36000) ((7 * w + 1 + 0) * 86400 + 61200)
        - max (max ((7 * w + 1) * 86400 + 57600) ((7 * w + 1 + 0) * 86400))
            ((7 * w + 1 + 0) * 86400 + 32400) = 3600 := by omega
    rw [hsub]; norm_num
  have e1 : dayHours ((7 * w + 1) * 86400 + 57600) ((7 * w + 4) * 86400 + 36000)
      [] 32400 61200 (7 * w + 1 + 1) = 0 :=
    dayHours_eval_off _ _ _ _ _ _ (by unfold weekday; omega)
  have e2 : dayHours ((7 * w + 1) * 86400 + 57600) ((7 * w + 4) * 86400 + 36000)
      [] 32400 61200 (7 * w + 1 + 2) = 0 :=
    dayHours_eval_off _ _ _ _ _ _ (by unfold weekday; omega)
  have e3 : dayHours ((7 * w + 1) * 86400 + 57600) ((7 * w + 4) * 86400 + 36000)
      [] 32400 61200 (7 * w + 1 + 3) = 1 := by
    rw [dayHours_eval_on _ _ _ _ _ _ (by unfold weekday; omega) (List.not_mem_nil _),
      if_pos (by omega)]
    have hsub : min ((7 * w + 4) * 86400 + 36000) ((7 * w + 1 + 3) * 86400 + 61200)
        - max (max ((7 * w + 1) * 86400 + 57600) ((7 * w + 1 + 3) * 86400))
            ((7 * w + 1 + 3) * 86400 + 32400) = 3600 := by omega
    rw [hsub]; norm_num
  rw [e0, e1, e2, e3]
  norm_num [round2, round_eq]

/-- Claim C6: an end-before-start (or degenerate) interval yields 0 from
`calculate_business_hours` — the function is total, so no error is raised —
and consequently `resolution_time_business_hours` is 0 for every record
lacking `created_at` or `resolved_at` or whose `resolved_at` precedes
`created_at`. -/
theorem invalid_interval_yields_zero :
    (∀ (s e : Nat) (hol : List Nat) (bs be : Nat), e ≤ s →
      calculate_business_hours s e hol bs be = 0) ∧
    (∀ (c r : Option Nat) (hol : List Nat),
      c = none ∨ r = none ∨ (∃ cs rs, c = some cs ∧ r = some rs ∧ rs < cs) →
      resolution_time_business_hours c r hol = 0) := by
  have hz : ∀ (s e : Nat) (hol : List Nat) (bs be : Nat), e ≤ s →
      calculate_business_hours s e hol bs be = 0 := by
    intro s e hol bs be h
    unfold calculate_business_hours
    rw [if_pos h]
  refine ⟨hz, ?_⟩
  rintro c r hol (rfl | rfl | ⟨cs, rs, rfl, rfl, hlt⟩)
  · cases r <;> rfl
  · cases c <;> rfl
  · exact hz cs rs hol 0 86399 (Nat.le_of_lt hlt)

/-- Witness for C6 at concrete inputs. -/
theorem invalid_interval_yields_zero_witness :
    calculate_business_hours 999 999 [] 32400 61200 = 0 ∧
    resolution_time_business_hours (some 10) none [] = 0 :=
  ⟨invalid_interval_yields_zero.1 999 999 [] 32400 61200 (by decide),
    invalid_interval_yields_zero.2 (some 10) none [] (Or.inr (Or.inl rfl))⟩

/-- Claim C7: `get_sla_status` returns "met" iff the actual hours are at
most the expected budget and "violated" otherwise; in particular the
boundary `actual = expected` is "met" and `actual = expected + 0.01` is
"violated". -/
theorem sla_status_boundary (a : ℚ) (e : Nat) :
    (get_sla_status a e = "met" ↔ a ≤ (e : ℚ)) ∧
    (get_sla_status a e = "violated" ↔ ¬ a ≤ (e : ℚ)) ∧
    get_sla_status (e : ℚ) e = "met" ∧
    get_sla_status ((e : ℚ) + 1 / 100) e = "violated" := by
  refine ⟨?_, ?_, ?_, ?_⟩
  · unfold get_sla_status
    split_ifs with h <;> simp [h]
  · unfold get_sla_status
    split_ifs with h <;> simp [h]
  · unfold get_sla_status
    rw [if_pos le_rfl]
  · unfold get_sla_status
    rw [if_neg (by intro h; nlinarith)]

/- ### Claim theorems: Gold stage -/

/-- Claim C8: every record in the SLA-enriched Gold output has status Done
or Resolved, because `run_gold` filters to that status set before computing
any SLA metric. -/
theorem gold_rows_resolved (df : List IssueRecord) (hol : List Nat)
    (g : GoldRecord) (hg : g ∈ run_gold df hol) :
    g.base.status = some "Done" ∨ g.base.status = some "Resolved" := by
  unfold run_gold calculate_sla_metrics at hg
  obtain ⟨r, hr, hgr⟩ := List.mem_map.mp hg
  have hst := (List.mem_filter.mp hr).2
  have hbase : g.base = r := by rw [← hgr]; rfl
  rw [hbase]
  simpa using hst

/-- Witness for C8 at a concrete input. -/
theorem gold_rows_resolved_witness :
    (sla_metrics_row [] doneRow).base.status = some "Done" ∨
    (sla_metrics_row [] doneRow).base.status = some "Resolved" :=
  gold_rows_resolved [doneRow] [] (sla_metrics_row [] doneRow)
    (by simp [run_gold, calculate_sla_metrics, filter_resolved, doneRow, blankRecord])

/-- Claim C9: a Done/Resolved record whose `resolved_at` is missing still
flows into the Gold output and is assigned
`resolution_time_business_hours = 0` and `sla_status = "met"` — it is
reported as meeting its SLA rather than excluded or erroring. -/
theorem resolved_missing_timestamp_met (df : List IssueRecord) (hol : List Nat)
    (r : IssueRecord) (hmem : r ∈ df)
    (hst : r.status = some "Done" ∨ r.status = some "Resolved")
    (hres : r.resolved_at = none) :
    sla_metrics_row hol r ∈ run_gold df hol ∧
    (sla_metrics_row hol r).resolution_time_business_hours = 0 ∧
    (sla_metrics_row hol r).sla_status = "met" := by
  have hzero : resolution_time_business_hours r.created_at r.resolved_at hol = 0 := by
    rw [hres]; cases r.created_at <;> rfl
  refine ⟨?_, ?_, ?_⟩
  · unfold run_gold calculate_sla_metrics
    exact List.mem_map.mpr
      ⟨r, List.mem_filter.mpr ⟨hmem, by rcases hst with h | h <;> simp [h]⟩, rfl⟩
  · exact hzero
  · show get_sla_status (resolution_time_business_hours r.created_at r.resolved_at hol)
        (get_expected_sla_hours r.priority) = "met"
    rw [hzero]
    unfold get_sla_status
    rw [if_pos (Nat.cast_nonneg _)]

/-- Witness for C9 at a concrete input. -/
theorem resolved_missing_timestamp_met_witness :
    sla_metrics_row [] doneRow ∈ run_gold [doneRow] [] ∧
    (sla_metrics_row [] doneRow).resolution_time_business_hours = 0 ∧
    (sla_metrics_row [] doneRow).sla_status = "met" :=
  resolved_missing_timestamp_met [doneRow] [] doneRow (by decide) (Or.inl rfl) rfl
